import Mathlib

/-
Verification of the quiz-generation and export pipeline of
src/streamlit_app.py, shallowly embedded in Lean.

Python strings are modelled as Lean String (with List Char as the
underlying data), Python ints as Nat or Int (Python list slicing is
modelled with Int indices, as Python ints are signed), Python lists as
List, dicts with string keys as association lists, and operations that
can raise (list indexing, random.choice on an empty list) as
Except PyErr.  Randomness (random.choice) is modelled by an explicit
oracle pick : Nat -> Nat giving the index drawn at each successive call.
-/

namespace Questgen

/-- Whitespace characters recognised by Python str.strip and str.split
with no arguments, restricted to the ASCII range. -/
def isPySpace (c : Char) : Bool :=
  c = ' ' || c = '\t' || c = '\n' || c = '\r' || c = '\x0b' || c = '\x0c'

/-- Left part of Python str.strip: drop leading whitespace. -/
def ltrim (l : List Char) : List Char := l.dropWhile isPySpace

/-- Right part of Python str.strip: drop trailing whitespace. -/
def rtrim (l : List Char) : List Char := (l.reverse.dropWhile isPySpace).reverse

/-- Python str.strip with no arguments on the character list of a string. -/
def pyStrip (l : List Char) : List Char := rtrim (ltrim l)

/-- Python str.strip as a String-to-String operation. -/
def pyStripS (s : String) : String := String.mk (pyStrip s.data)

/-- Python text.split with a one-character separator, here the period,
on the character list: empty input gives one empty piece, and every
period opens a new piece. -/
def splitDot : List Char → List (List Char)
  | [] => [[]]
  | c :: rest =>
    if c = '.' then [] :: splitDot rest
    else
      match splitDot rest with
      | [] => [[c]]
      | s :: ss => (c :: s) :: ss

/-- Inverse shape of splitDot: joins pieces with a period between
consecutive pieces. -/
def joinDots : List (List Char) → List Char
  | [] => []
  | [x] => x
  | x :: y :: t => x ++ '.' :: joinDots (y :: t)

/-- TextProcessor.extract_sentences: split the text on periods, strip
each piece, and keep the non-empty results, in order. -/
def extract_sentences (text : String) : List String :=
  (((splitDot text.data).map pyStrip).filter (fun l => !l.isEmpty)).map String.mk

/-- Python str.split with no arguments (split on whitespace runs,
discarding empty pieces), via an accumulator of the current word. -/
def pyWordsAux : List Char → List Char → List (List Char)
  | acc, [] => if acc.isEmpty then [] else [acc.reverse]
  | acc, c :: rest =>
    if isPySpace c then
      if acc.isEmpty then pyWordsAux [] rest else acc.reverse :: pyWordsAux [] rest
    else pyWordsAux (c :: acc) rest

/-- Python s.split() on a string, yielding the whitespace-delimited words. -/
def pyWords (s : String) : List String := (pyWordsAux [] s.data).map String.mk

/-- Python s.lower(), restricted to ASCII case mapping. -/
def pyLower (s : String) : String := String.mk (s.data.map Char.toLower)

/-- DistractorGenerator.generate_short_answer_distractors: lowercase and
split the correct answer into words, join the reversed word list with
spaces, append that string once per loop iteration, and slice to the
requested count. -/
def generate_short_answer_distractors (correct_answer : String)
    (num_distractors : Nat) : List String :=
  ((List.range num_distractors).map
    (fun _ => String.intercalate " " (pyWords (pyLower correct_answer)).reverse)).take
    num_distractors

/-- Python list slicing l[:k] with a possibly negative bound k, as on
Python ints: a negative bound counts from the end, clamped at zero. -/
def pySlice {α : Type} (l : List α) (k : Int) : List α :=
  if 0 ≤ k then l.take k.toNat else l.take ((l.length : Int) + k).toNat

/-- DistractorGenerator.generate_multiple_choice_distractors: three stock
variations of the correct answer, sliced to num_options - 1 with Python
slicing semantics, prepended with the correct answer itself. -/
def generate_multiple_choice_distractors (correct_answer : String)
    (num_options : Nat) : List String :=
  correct_answer ::
    pySlice [correct_answer ++ " but faster", "Not " ++ correct_answer,
      correct_answer ++ " and slower"] ((num_options : Int) - 1)

/-- Errors a Python expression in the embedded code can raise: indexing
into an empty or too-short list (random.choice on an empty sequence
raises IndexError as well). -/
inductive PyErr : Type
  | indexError : PyErr
deriving DecidableEq, Repr

/-- Question dataclass of streamlit_app.py; the metadata dict is an
association list from keys to string values. -/
structure Question : Type where
  text : String
  type : String
  answers : List String
  correct_answers : List Nat
  distractors : List String
  metadata : List (String × String)
deriving DecidableEq, Repr

/-- Counts dict handed to QuizGenerator.generate_quiz by the UI, always
carrying the three keys short_text, multiple_choice and ordering. -/
structure QuestionCounts : Type where
  short_text : Nat
  multiple_choice : Nat
  ordering : Nat
deriving DecidableEq, Repr

/-- Python random.choice on a list, given the index the random source
drew: raises IndexError on an empty list, otherwise returns the element
at the drawn index (reduced modulo the length, as the index is drawn
in range). -/
def pyChoice {α : Type} (k : Nat) : List α → Except PyErr α
  | [] => .error .indexError
  | a :: as => .ok ((a :: as).get ⟨k % (a :: as).length, Nat.mod_lt _ (Nat.succ_pos as.length)⟩)

/-- Short-text Question built by generate_quiz from a chosen sentence. -/
def shortTextQuestion (sentence : String) : Question :=
  ⟨"What is the main idea of: '" ++ sentence ++ "'?", "short_text", [], [0],
    generate_short_answer_distractors sentence 3, [("source", "document")]⟩

/-- Multiple-choice Question built by generate_quiz from a chosen
sentence; answers and distractors do not depend on the sentence. -/
def mcQuestion (sentence : String) : Question :=
  ⟨"What best describes: '" ++ sentence ++ "'?", "multiple_choice",
    ["Accurate", "Partially Accurate", "Incorrect"], [0],
    generate_multiple_choice_distractors "Accurate" 4, [("source", "document")]⟩

/-- One generation loop of generate_quiz: n iterations, each drawing a
sentence with random.choice (the i-th draw overall uses pick i) and
appending the Question built from it; a raised IndexError propagates. -/
def pickQuestions (mk : String → Question) (pick : Nat → Nat)
    (sentences : List String) : Nat → Nat → Except PyErr (List Question)
  | _, 0 => .ok []
  | i, Nat.succ n =>
    match pyChoice (pick i) sentences with
    | .error e => .error e
    | .ok s =>
      match pickQuestions mk pick sentences (i + 1) n with
      | .error e => .error e
      | .ok rest => .ok (mk s :: rest)

/-- QuizGenerator.generate_quiz: extract the sentences, run the
short-text loop and then the multiple-choice loop (the ordering count is
never read), and return the questions in generation order. -/
def generate_quiz (pick : Nat → Nat) (file_data : String)
    (question_counts : QuestionCounts) : Except PyErr (List Question) :=
  match pickQuestions shortTextQuestion pick (extract_sentences file_data)
      0 question_counts.short_text with
  | .error e => .error e
  | .ok sts =>
    match pickQuestions mcQuestion pick (extract_sentences file_data)
        question_counts.short_text question_counts.multiple_choice with
    | .error e => .error e
    | .ok mcs => .ok (sts ++ mcs)

/-- JSON values as produced by json.dumps on the fields of a Question. -/
inductive Json : Type
  | str : String → Json
  | num : Int → Json
  | arr : List Json → Json
  | obj : List (String × Json) → Json

/-- JSON object for one Question, mirroring q dot dunder-dict in the json
branch of export_questions: all six fields, in declaration order. -/
def questionToJson (q : Question) : Json :=
  .obj [("text", .str q.text), ("type", .str q.type),
    ("answers", .arr (q.answers.map .str)),
    ("correct_answers", .arr (q.correct_answers.map (fun n => .num (Int.ofNat n)))),
    ("distractors", .arr (q.distractors.map .str)),
    ("metadata", .obj (q.metadata.map (fun p => (p.1, .str p.2))))]

/-- JSON array serialized by the json branch of export_questions. -/
def encodeQuiz (questions : List Question) : Json :=
  .arr (questions.map questionToJson)

/-- Effectful map over Option, left to right, as a plain recursion. -/
def optMap {α β : Type} (f : α → Option β) : List α → Option (List β)
  | [] => some []
  | a :: as =>
    match f a with
    | none => none
    | some b =>
      match optMap f as with
      | none => none
      | some bs => some (b :: bs)

/-- Modelled from the spec: the re-parsing direction of the
StructuredData round-trip law of section 8 is not in the repository (the
code only serializes, with json.dumps); this decoder reads one string
field back. -/
def decodeStr : Json → Option String
  | .str s => some s
  | _ => none

/-- Modelled from the spec: numeric field of the absent re-parser; a
correct-answer index must be a non-negative integer. -/
def decodeNat : Json → Option Nat
  | .num n => if 0 ≤ n then some n.toNat else none
  | _ => none

/-- Modelled from the spec: the absent re-parser for one Question,
expecting exactly the six fields json.dumps writes for the dataclass. -/
def decodeQuestion : Json → Option Question
  | .obj [("text", .str t), ("type", .str ty), ("answers", .arr as),
      ("correct_answers", .arr cs), ("distractors", .arr ds),
      ("metadata", .obj ms)] =>
    match optMap decodeStr as with
    | none => none
    | some answers =>
      match optMap decodeNat cs with
      | none => none
      | some corrects =>
        match optMap decodeStr ds with
        | none => none
        | some distractors =>
          match optMap (fun p => (decodeStr p.2).map (fun v => (p.1, v))) ms with
          | none => none
          | some metadata => some ⟨t, ty, answers, corrects, distractors, metadata⟩
  | _ => none

/-- Modelled from the spec: the absent re-parser for an exported quiz,
one array entry per question. -/
def decodeQuiz : Json → Option (List Question)
  | .arr js => optMap decodeQuestion js
  | _ => none

/-- Escaping of one character inside a JSON string literal (the ASCII
escapes json.dumps emits; no theorem depends on the rendering). -/
def escapeChar (c : Char) : String :=
  if c = '"' then "\\\""
  else if c = '\\' then "\\\\"
  else if c = '\n' then "\\n"
  else if c = '\t' then "\\t"
  else if c = '\r' then "\\r"
  else String.mk [c]

/-- Escaping of a whole JSON string literal body. -/
def escapeString (s : String) : String := String.join (s.data.map escapeChar)

mutual

/-- Textual rendering of a Json value, standing for the byte output of
json.dumps. -/
def renderJson : Json → String
  | .str s => "\"" ++ escapeString s ++ "\""
  | .num n => toString n
  | .arr xs => "[" ++ String.intercalate ", " (renderList xs) ++ "]"
  | .obj ms => "\x7b" ++ String.intercalate ", " (renderPairs ms) ++ "\x7d"

/-- Renderings of the elements of a JSON array. -/
def renderList : List Json → List String
  | [] => []
  | j :: js => renderJson j :: renderList js

/-- Renderings of the members of a JSON object. -/
def renderPairs : List (String × Json) → List String
  | [] => []
  | (k, v) :: ms => ("\"" ++ escapeString k ++ "\": " ++ renderJson v) :: renderPairs ms

end

/-- Effectful map over Except, left to right, as a plain recursion. -/
def exceptMap {α β : Type} (f : α → Except PyErr β) : List α → Except PyErr (List β)
  | [] => .ok []
  | a :: as =>
    match f a with
    | .error e => .error e
    | .ok b =>
      match exceptMap f as with
      | .error e => .error e
      | .ok bs => .ok (b :: bs)

/-- Lines contributed to the gift branch of export_questions by the
question at overall position i: a multiple-choice question yields its
block (marker line, 1-based correct-index line, one line per answer and
per distractor, closing line), indexing correct_answers raises on an
empty list, and any other question kind yields nothing. -/
def giftQuestionLines (i : Nat) (q : Question) : Except PyErr (List String) :=
  if q.type = "multiple_choice" then
    match q.correct_answers with
    | [] => .error .indexError
    | a :: _ =>
      .ok (("::Q" ++ toString (i + 1) ++ "::" ++ q.text ++ "\x7b") ::
        ("$A=" ++ toString (a + 1)) :: (q.answers ++ q.distractors ++ ["\x7d"]))
  else .ok []

/-- Block the gift branch emits for a multiple-choice question whose
correct_answers list is non-empty, with headD naming its first entry. -/
def giftBlock (i : Nat) (q : Question) : List String :=
  ("::Q" ++ toString (i + 1) ++ "::" ++ q.text ++ "\x7b") ::
    ("$A=" ++ toString (q.correct_answers.headD 0 + 1)) ::
    (q.answers ++ q.distractors ++ ["\x7d"])

/-- Line list of the gift branch of export_questions: one pass over the
enumerated questions, concatenating each question's contribution. -/
def export_gift_lines (questions : List Question) : Except PyErr (List String) :=
  match exceptMap (fun p => giftQuestionLines p.1 p.2) questions.enum with
  | .error e => .error e
  | .ok chunks => .ok chunks.flatten

/-- StreamlitQuizApp.export_questions: dispatch on the format string;
json and txt always produce a string, gift can raise while indexing
correct_answers, and any other format falls through to Python None,
modelled as ok none. -/
def export_questions (questions : List Question) (format_type : String) :
    Except PyErr (Option String) :=
  if format_type = "json" then .ok (some (renderJson (encodeQuiz questions)))
  else if format_type = "txt" then
    .ok (some (String.intercalate "\n\n" (questions.map
      (fun q => q.text ++ "\nAnswers: " ++ String.intercalate ", " q.answers))))
  else if format_type = "gift" then
    match export_gift_lines questions with
    | .error e => .error e
    | .ok ls => .ok (some (String.intercalate "\n" ls))
  else .ok none

theorem dropWhile_idem (p : Char → Bool) (l : List Char) :
    (l.dropWhile p).dropWhile p = l.dropWhile p := by
  induction l with
  | nil => rfl
  | cons a t ih =>
    by_cases h : p a
    · simp [List.dropWhile_cons, h, ih]
    · simp [List.dropWhile_cons, h]

theorem ltrim_idem (l : List Char) : ltrim (ltrim l) = ltrim l :=
  dropWhile_idem isPySpace l

theorem rtrim_idem (l : List Char) : rtrim (rtrim l) = rtrim l := by
  unfold rtrim
  rw [List.reverse_reverse, dropWhile_idem]

theorem dropWhile_append_last (p : Char → Bool) (a : Char) (h : p a = false) :
    ∀ xs : List Char, ∃ ys, (xs ++ [a]).dropWhile p = ys ++ [a] := by
  intro xs
  induction xs with
  | nil => exact ⟨[], by simp [List.dropWhile_cons, h]⟩
  | cons x t ih =>
    by_cases hx : p x
    · obtain ⟨ys, hy⟩ := ih
      exact ⟨ys, by simp [List.dropWhile_cons, hx, hy]⟩
    · exact ⟨x :: t, by simp [List.dropWhile_cons, hx]⟩

theorem ltrim_head_false {a : Char} {t m : List Char} (h : ltrim m = a :: t) :
    isPySpace a = false := by
  induction m with
  | nil => simp [ltrim] at h
  | cons b r ih =>
    by_cases hb : isPySpace b
    · exact ih (by simpa [ltrim, List.dropWhile_cons, hb] using h)
    · simp only [ltrim, List.dropWhile_cons, hb] at h
      cases h
      exact eq_false_of_ne_true hb

theorem ltrim_of_ltrim_fix {m : List Char} (h : ltrim m = m) :
    ltrim (rtrim m) = rtrim m := by
  cases m with
  | nil => rfl
  | cons a t =>
    have ha : isPySpace a = false := ltrim_head_false h
    obtain ⟨ys, hy⟩ := dropWhile_append_last isPySpace a ha t.reverse
    have hr : rtrim (a :: t) = a :: ys.reverse := by
      unfold rtrim
      rw [List.reverse_cons, hy]
      simp
    rw [hr]
    simp [ltrim, List.dropWhile_cons, ha]

theorem pyStrip_idem (l : List Char) : pyStrip (pyStrip l) = pyStrip l := by
  unfold pyStrip
  rw [ltrim_of_ltrim_fix (ltrim_idem l), rtrim_idem]

theorem ltrim_sublist (l : List Char) : List.Sublist (ltrim l) l := by
  unfold ltrim
  exact List.dropWhile_sublist _

theorem rtrim_sublist (l : List Char) : List.Sublist (rtrim l) l := by
  have h0 : List.Sublist (l.reverse.dropWhile isPySpace) l.reverse :=
    List.dropWhile_sublist _
  have h := h0.reverse
  rw [List.reverse_reverse] at h
  exact h

theorem pyStrip_sublist (l : List Char) : List.Sublist (pyStrip l) l :=
  (rtrim_sublist (ltrim l)).trans (ltrim_sublist l)

theorem pyStrip_nil_of_space {l : List Char}
    (h : ∀ c ∈ l, isPySpace c = true) : pyStrip l = [] := by
  have hl : ltrim l = [] := List.dropWhile_eq_nil_iff.mpr h
  unfold pyStrip
  rw [hl]
  rfl

theorem exists_not_space_of_strip_fix {l : List Char} (hne : l ≠ [])
    (hfix : pyStrip l = l) : ∃ c ∈ l, isPySpace c = false := by
  by_contra hall
  push_neg at hall
  have h : ∀ c ∈ l, isPySpace c = true := by
    intro c hc
    have := hall c hc
    exact eq_true_of_ne_false this
  exact hne (hfix ▸ pyStrip_nil_of_space h)

theorem splitDot_ne_nil (l : List Char) : splitDot l ≠ [] := by
  cases l with
  | nil => simp [splitDot]
  | cons c rest =>
    by_cases h : c = '.'
    · simp [splitDot, h]
    · simp only [splitDot, if_neg h]
      cases splitDot rest <;> simp

theorem joinDots_splitDot (l : List Char) : joinDots (splitDot l) = l := by
  induction l with
  | nil => rfl
  | cons c rest ih =>
    by_cases h : c = '.'
    · subst h
      simp only [splitDot, if_pos rfl]
      obtain ⟨s, ss, hs⟩ : ∃ s ss, splitDot rest = s :: ss := by
        cases hr : splitDot rest with
        | nil => exact absurd hr (splitDot_ne_nil rest)
        | cons s ss => exact ⟨s, ss, rfl⟩
      rw [hs]
      rw [hs] at ih
      simpa [joinDots] using ih
    · simp only [splitDot, if_neg h]
      obtain ⟨s, ss, hs⟩ : ∃ s ss, splitDot rest = s :: ss := by
        cases hr : splitDot rest with
        | nil => exact absurd hr (splitDot_ne_nil rest)
        | cons s ss => exact ⟨s, ss, rfl⟩
      rw [hs]
      rw [hs] at ih
      cases ss with
      | nil => simpa [joinDots] using ih
      | cons y t => simpa [joinDots] using ih

theorem splitDot_no_dot {l : List Char} (h : '.' ∉ l) : splitDot l = [l] := by
  induction l with
  | nil => rfl
  | cons c rest ih =>
    have hc : ¬c = '.' := fun hh => h (hh ▸ List.mem_cons_self c rest)
    have hrest : '.' ∉ rest := fun hh => h (List.mem_cons_of_mem c hh)
    simp only [splitDot, if_neg hc, ih hrest]

theorem mem_splitDot_subset {l : List Char} {piece : List Char}
    (hp : piece ∈ splitDot l) : ∀ c ∈ piece, c ∈ l := by
  induction l generalizing piece with
  | nil =>
    simp only [splitDot, List.mem_singleton] at hp
    simp [hp]
  | cons a rest ih =>
    by_cases h : a = '.'
    · rw [show splitDot (a :: rest) = [] :: splitDot rest by
        simp [splitDot, if_pos h], List.mem_cons] at hp
      rcases hp with hp | hp
      · simp [hp]
      · intro c hc
        exact List.mem_cons_of_mem a (ih hp c hc)
    · obtain ⟨s, ss, hs⟩ : ∃ s ss, splitDot rest = s :: ss := by
        cases hr : splitDot rest with
        | nil => exact absurd hr (splitDot_ne_nil rest)
        | cons s ss => exact ⟨s, ss, rfl⟩
      rw [show splitDot (a :: rest) = (a :: s) :: ss by
        simp [splitDot, if_neg h, hs], List.mem_cons] at hp
      rcases hp with hp | hp
      · intro c hc
        rw [hp, List.mem_cons] at hc
        rcases hc with hc | hc
        · exact hc ▸ List.mem_cons_self a rest
        · exact List.mem_cons_of_mem a (ih (hs ▸ List.mem_cons_self s ss) c hc)
      · intro c hc
        exact List.mem_cons_of_mem a (ih (hs ▸ List.mem_cons_of_mem s hp) c hc)

theorem flatten_sublist_of_sublist {l₁ l₂ : List (List Char)}
    (h : List.Sublist l₁ l₂) : List.Sublist l₁.flatten l₂.flatten := by
  induction h with
  | slnil => exact List.Sublist.refl _
  | cons a _ ih =>
    refine ih.trans ?_
    rw [List.flatten_cons]
    exact List.sublist_append_right a _
  | cons₂ a _ ih =>
    rw [List.flatten_cons, List.flatten_cons]
    exact (List.Sublist.refl a).append ih

theorem flatten_map_pyStrip_sublist (P : List (List Char)) :
    List.Sublist (P.map pyStrip).flatten P.flatten := by
  induction P with
  | nil => exact List.Sublist.refl _
  | cons x t ih => simpa using (pyStrip_sublist x).append ih

theorem flatten_sublist_joinDots (P : List (List Char)) :
    List.Sublist P.flatten (joinDots P) := by
  induction P with
  | nil => exact List.Sublist.refl _
  | cons x t ih =>
    cases t with
    | nil => simp [joinDots]
    | cons y r =>
      have h1 : List.Sublist (y :: r).flatten ('.' :: joinDots (y :: r)) :=
        ih.trans (List.sublist_cons_self _ _)
      simpa [joinDots] using (List.Sublist.refl x).append h1

theorem pickQuestions_zero (mk : String → Question) (pick : Nat → Nat)
    (sentences : List String) (i : Nat) :
    pickQuestions mk pick sentences i 0 = .ok [] := rfl

theorem pickQuestions_nil_error (mk : String → Question) (pick : Nat → Nat)
    (i n : Nat) (h : 0 < n) :
    pickQuestions mk pick [] i n = .error .indexError := by
  cases n with
  | zero => exact absurd h (Nat.lt_irrefl 0)
  | succ m => rfl

theorem pickQuestions_mem {mk : String → Question} {pick : Nat → Nat}
    {sentences : List String} {i n : Nat} {qs : List Question}
    (h : pickQuestions mk pick sentences i n = .ok qs) :
    ∀ q ∈ qs, ∃ s, q = mk s := by
  induction n generalizing i qs with
  | zero =>
    rw [pickQuestions_zero] at h
    cases h
    intro q hq
    exact absurd hq (List.not_mem_nil q)
  | succ m ih =>
    rw [show pickQuestions mk pick sentences i (m + 1) =
        match pyChoice (pick i) sentences with
        | .error e => .error e
        | .ok s =>
          match pickQuestions mk pick sentences (i + 1) m with
          | .error e => .error e
          | .ok rest => .ok (mk s :: rest) from rfl] at h
    cases hc : pyChoice (pick i) sentences with
    | error e => rw [hc] at h; cases h
    | ok s =>
      rw [hc] at h
      cases hr : pickQuestions mk pick sentences (i + 1) m with
      | error e => rw [hr] at h; cases h
      | ok rest =>
        rw [hr] at h
        cases h
        intro q hq
        rcases List.mem_cons.mp hq with hq | hq
        · exact ⟨s, hq⟩
        · exact ih hr q hq

theorem string_append_length (s t : String) : (s ++ t).length = s.length + t.length :=
  String.length_append s t

theorem append_suffix_ne (c s t : String) (hne : s ≠ t) : c ++ s ≠ c ++ t := by
  intro h
  apply hne
  have hd : c.data ++ s.data = c.data ++ t.data := by
    have h1 := congrArg String.data h
    rwa [String.data_append, String.data_append] at h1
  exact String.ext (List.append_cancel_left hd)

theorem ne_of_length_ne {s t : String} (h : s.length ≠ t.length) : s ≠ t :=
  fun hh => h (congrArg String.length hh)

theorem mc_distinct (c : String) :
    List.Pairwise (fun a b => a ≠ b)
      [c, c ++ " but faster", "Not " ++ c, c ++ " and slower"] := by
  have l1 : (c ++ " but faster").length = c.length + 11 := by
    rw [string_append_length]; rfl
  have l2 : ("Not " ++ c).length = 4 + c.length := by
    rw [string_append_length]; rfl
  have l3 : (c ++ " and slower").length = c.length + 11 := by
    rw [string_append_length]; rfl
  refine List.pairwise_cons.mpr ⟨?_, List.pairwise_cons.mpr ⟨?_, List.pairwise_cons.mpr
    ⟨?_, List.pairwise_singleton _ _⟩⟩⟩
  · intro b hb
    rcases List.mem_cons.mp hb with hb | hb
    · subst hb; exact ne_of_length_ne (by rw [l1]; omega)
    rcases List.mem_cons.mp hb with hb | hb
    · subst hb; exact ne_of_length_ne (by rw [l2]; omega)
    rcases List.mem_singleton.mp hb with hb
    · subst hb; exact ne_of_length_ne (by rw [l3]; omega)
  · intro b hb
    rcases List.mem_cons.mp hb with hb | hb
    · subst hb; exact ne_of_length_ne (by rw [l1, l2]; omega)
    rcases List.mem_singleton.mp hb with hb
    · subst hb
      exact append_suffix_ne c " but faster" " and slower" (by decide)
  · intro b hb
    rcases List.mem_singleton.mp hb with hb
    · subst hb; exact ne_of_length_ne (by rw [l2, l3]; omega)

theorem optMap_cons_eq {α β : Type} (f : α → Option β) (a : α) (as : List α) :
    optMap f (a :: as) = match f a with
      | none => none
      | some b =>
        match optMap f as with
        | none => none
        | some bs => some (b :: bs) := rfl

theorem exceptMap_cons_eq {α β : Type} (f : α → Except PyErr β) (a : α) (as : List α) :
    exceptMap f (a :: as) = match f a with
      | .error e => .error e
      | .ok b =>
        match exceptMap f as with
        | .error e => .error e
        | .ok bs => .ok (b :: bs) := rfl

theorem optMap_decodeStr (l : List String) :
    optMap decodeStr (l.map Json.str) = some l := by
  induction l with
  | nil => rfl
  | cons a t ih => simp [optMap, decodeStr, ih]

theorem optMap_decodeNat (l : List Nat) :
    optMap decodeNat (l.map (fun n => Json.num (Int.ofNat n))) = some l := by
  induction l with
  | nil => rfl
  | cons a t ih =>
    rw [List.map_cons, optMap_cons_eq]
    have hd : decodeNat (Json.num (Int.ofNat a)) = some a := by
      simp [decodeNat, Int.toNat_natCast]
    rw [hd, ih]

theorem optMap_decodePairs (l : List (String × String)) :
    optMap (fun p => (decodeStr p.2).map (fun v => (p.1, v)))
      (l.map (fun p => (p.1, Json.str p.2))) = some l := by
  induction l with
  | nil => rfl
  | cons a t ih =>
    rw [List.map_cons, optMap_cons_eq]
    have hf : Option.map (fun v => ((a.1, Json.str a.2).1, v))
        (decodeStr (a.1, Json.str a.2).2) = some a := rfl
    rw [hf, ih]

theorem decode_questionToJson (q : Question) :
    decodeQuestion (questionToJson q) = some q := by
  obtain ⟨t, ty, as, cs, ds, ms⟩ := q
  simp only [questionToJson, decodeQuestion]
  rw [optMap_decodeStr, optMap_decodeNat, optMap_decodeStr, optMap_decodePairs]

theorem enumFrom_cons {α : Type} (n : Nat) (a : α) (as : List α) :
    List.enumFrom n (a :: as) = (n, a) :: List.enumFrom (n + 1) as := rfl

theorem gift_chunks (qs : List Question) (n : Nat)
    (h : ∀ q ∈ qs, q.type = "multiple_choice" → q.correct_answers ≠ []) :
    exceptMap (fun p => giftQuestionLines p.1 p.2) (List.enumFrom n qs) =
      .ok ((List.enumFrom n qs).map
        (fun p => if p.2.type = "multiple_choice" then giftBlock p.1 p.2 else [])) := by
  induction qs generalizing n with
  | nil => rfl
  | cons q t ih =>
    rw [enumFrom_cons]
    have hq : giftQuestionLines n q =
        .ok (if q.type = "multiple_choice" then giftBlock n q else []) := by
      by_cases hty : q.type = "multiple_choice"
      · cases hca : q.correct_answers with
        | nil => exact absurd hca (h q (List.mem_cons_self q t) hty)
        | cons a r =>
          simp [giftQuestionLines, hty, hca, giftBlock]
      · simp [giftQuestionLines, hty]
    have ht := ih (n + 1) (fun q hq hty => h q (List.mem_cons_of_mem _ hq) hty)
    simp only [exceptMap_cons_eq]
    rw [hq, ht]
    rfl

theorem flatten_if_filter {α : Type} (pred : α → Bool) (f : α → List String)
    (L : List α) :
    (L.map (fun p => if pred p then f p else [])).flatten =
      ((L.filter pred).map f).flatten := by
  induction L with
  | nil => rfl
  | cons a t ih =>
    by_cases h : pred a
    · simp [h, ih]
    · simp [h, ih]

theorem enumFrom_filter_length (pb : Question → Bool) (qs : List Question) (n : Nat) :
    ((List.enumFrom n qs).filter (fun p => pb p.2)).length =
      (qs.filter pb).length := by
  induction qs generalizing n with
  | nil => rfl
  | cons q t ih =>
    rw [enumFrom_cons]
    by_cases h : pb q
    · simp [List.filter_cons, h, ih]
    · simp [List.filter_cons, h, ih]

theorem generate_quiz_eq (pick : Nat → Nat) (file_data : String)
    (question_counts : QuestionCounts) :
    generate_quiz pick file_data question_counts =
      match pickQuestions shortTextQuestion pick (extract_sentences file_data)
          0 question_counts.short_text with
      | .error e => .error e
      | .ok sts =>
        match pickQuestions mcQuestion pick (extract_sentences file_data)
            question_counts.short_text question_counts.multiple_choice with
        | .error e => .error e
        | .ok mcs => .ok (sts ++ mcs) := rfl

theorem generate_quiz_ok_shape {pick : Nat → Nat} {text : String}
    {counts : QuestionCounts} {qs : List Question}
    (h : generate_quiz pick text counts = .ok qs) :
    ∀ q ∈ qs, (∃ s, q = shortTextQuestion s) ∨ (∃ s, q = mcQuestion s) := by
  rw [generate_quiz_eq] at h
  cases h1 : pickQuestions shortTextQuestion pick (extract_sentences text)
      0 counts.short_text with
  | error e => rw [h1] at h; simp at h
  | ok sts =>
    rw [h1] at h
    cases h2 : pickQuestions mcQuestion pick (extract_sentences text)
        counts.short_text counts.multiple_choice with
    | error e => rw [h2] at h; simp at h
    | ok mcs =>
      rw [h2] at h
      simp only [Except.ok.injEq] at h
      subst h
      intro q hq
      rcases List.mem_append.mp hq with hq | hq
      · exact Or.inl (pickQuestions_mem h1 q hq)
      · exact Or.inr (pickQuestions_mem h2 q hq)

theorem mc_length (c : String) (k : Nat) (h : 1 ≤ k) :
    (generate_multiple_choice_distractors c k).length = min k 4 := by
  unfold generate_multiple_choice_distractors pySlice
  rw [if_pos (show (0 : Int) ≤ (k : Int) - 1 by omega)]
  simp only [List.length_cons, List.length_take, List.length_nil]
  have ht : ((k : Int) - 1).toNat = k - 1 := by omega
  rw [ht]
  omega

theorem flatten_if_mc (L : List (Nat × Question)) :
    (L.map (fun p => if p.2.type = "multiple_choice" then giftBlock p.1 p.2 else [])).flatten =
      ((L.filter (fun p => p.2.type = "multiple_choice")).map
        (fun p => giftBlock p.1 p.2)).flatten := by
  induction L with
  | nil => rfl
  | cons a t ih =>
    by_cases h : a.2.type = "multiple_choice"
    · simp [h, ih, List.filter_cons]
    · simp [h, ih, List.filter_cons]

/-- C1 counterexample: generating one multiple-choice question from the
corpus "A." produces a question whose distractors list contains the
correct answer text (the element of answers at the correct index 0),
so the distractors are not disjoint from the correct answer. -/
theorem c1_counterexample :
    generate_quiz (fun _ => 0) "A." ⟨0, 1, 0⟩ = .ok [mcQuestion "A"] ∧
    (mcQuestion "A").answers.head? = some "Accurate" ∧
    (mcQuestion "A").correct_answers = [0] ∧
    "Accurate" ∈ (mcQuestion "A").distractors :=
  ⟨rfl, rfl, rfl, by decide⟩

/-- C1 (amended): every multiple-choice question produced by
generate_quiz has correct index 0 with answer text "Accurate", and its
distractors list contains that correct answer text as its first element,
while none of the remaining distractor entries equals it: the claimed
disjointness fails exactly at the head of the distractors list. -/
theorem c1_mc_distractor_overlap (pick : Nat → Nat) (text : String)
    (counts : QuestionCounts) (qs : List Question)
    (h : generate_quiz pick text counts = .ok qs) :
    ∀ q ∈ qs, q.type = "multiple_choice" →
      q.correct_answers = [0] ∧ q.answers.head? = some "Accurate" ∧
      q.distractors.head? = some "Accurate" ∧ "Accurate" ∉ q.distractors.tail := by
  intro q hq hty
  rcases generate_quiz_ok_shape h q hq with ⟨s, rfl⟩ | ⟨s, rfl⟩
  · exact absurd hty (show ("short_text" : String) ≠ "multiple_choice" by decide)
  · refine ⟨rfl, rfl, rfl, ?_⟩
    show "Accurate" ∉ (generate_multiple_choice_distractors "Accurate" 4).tail
    decide

/-- C1 witness: the amended statement evaluated on the one-question run
over the corpus "W.". -/
theorem c1_witness :
    (mcQuestion "W").distractors.head? = some "Accurate" ∧
    "Accurate" ∉ (mcQuestion "W").distractors.tail ∧
    (mcQuestion "W").answers.head? = some "Accurate" := by
  have h := c1_mc_distractor_overlap (fun _ => 0) "W." ⟨0, 1, 0⟩ [mcQuestion "W"]
    rfl (mcQuestion "W") (List.mem_singleton.mpr rfl) rfl
  exact ⟨h.2.2.1, h.2.2.2, h.2.1⟩

/-- C2 counterexample: multipleChoiceDistractors("X", 0) does not fail
and returns three elements, exceeding the requested optionCount of 0. -/
theorem c2_counterexample :
    generate_multiple_choice_distractors "X" 0 = ["X", "X but faster", "Not X"] ∧
    0 < (generate_multiple_choice_distractors "X" 0).length :=
  ⟨rfl, by decide⟩

/-- C2 (amended): for optionCount at least 1 the function returns at
most optionCount elements, but at optionCount = 0 it does not fail with
any condition: it returns the correct answer followed by the first two
variations, three elements in total. -/
theorem c2_mc_option_count (c : String) (k : Nat) :
    (1 ≤ k → (generate_multiple_choice_distractors c k).length ≤ k) ∧
    generate_multiple_choice_distractors c 0 = [c, c ++ " but faster", "Not " ++ c] := by
  constructor
  · intro h
    rw [mc_length c k h]
    exact Nat.min_le_left k 4
  · rfl

/-- C2 witness: the bound evaluated at optionCount 2 and the exact
result at optionCount 0. -/
theorem c2_witness :
    (generate_multiple_choice_distractors "Y" 2).length ≤ 2 ∧
    generate_multiple_choice_distractors "Y" 0 = ["Y", "Y but faster", "Not Y"] :=
  ⟨(c2_mc_option_count "Y" 2).1 (by decide), (c2_mc_option_count "Y" 0).2⟩

/-- C3 counterexample: for the one-word input "hello" the single
produced distractor is the correct answer itself, and for the zero-word
input "" the function returns two empty strings, not an empty
sequence. -/
theorem c3_counterexample :
    "hello" ∈ generate_short_answer_distractors "hello" 1 ∧
    generate_short_answer_distractors "" 2 = ["", ""] ∧
    generate_short_answer_distractors "" 2 ≠ [] :=
  ⟨by decide, rfl, by decide⟩

/-- C3 (amended): for every correct answer and every count n the
function returns exactly n entries (every entry is the space-join of the
reversed lowercased word list, which may equal the correct answer); when
the correct answer contains zero words it returns n copies of the empty
string rather than an empty sequence. -/
theorem c3_short_answer_count (correct : String) (n : Nat) :
    (generate_short_answer_distractors correct n).length = n ∧
    (pyWords (pyLower correct) = [] →
      generate_short_answer_distractors correct n = List.replicate n "") := by
  constructor
  · simp [generate_short_answer_distractors]
  · intro h
    simp [generate_short_answer_distractors, h]
    exact Or.inr rfl

/-- C3 witness: the exact count on a two-word input and the zero-word
case on the empty string. -/
theorem c3_witness :
    (generate_short_answer_distractors "ab cd" 2).length = 2 ∧
    generate_short_answer_distractors "" 3 = List.replicate 3 "" :=
  ⟨(c3_short_answer_count "ab cd" 2).1, (c3_short_answer_count "" 3).2 rfl⟩

/-- C4 counterexample: multipleChoiceDistractors("X", 5) returns 4
entries, not the 5 the claim demands. -/
theorem c4_counterexample :
    (generate_multiple_choice_distractors "X" 5).length = 4 ∧
    (generate_multiple_choice_distractors "X" 5).length ≠ 5 :=
  ⟨rfl, by decide⟩

/-- C4 (amended): for every correct answer and every k at least 1 the
function returns exactly min k 4 entries (only three stock variations
exist beyond the correct answer), the first entry equals the correct
answer, and all entries are pairwise distinct. -/
theorem c4_mc_exact (c : String) (k : Nat) (h : 1 ≤ k) :
    (generate_multiple_choice_distractors c k).length = min k 4 ∧
    (generate_multiple_choice_distractors c k).head? = some c ∧
    List.Pairwise (fun a b => a ≠ b) (generate_multiple_choice_distractors c k) := by
  refine ⟨mc_length c k h, rfl, ?_⟩
  unfold generate_multiple_choice_distractors pySlice
  rw [if_pos (show (0 : Int) ≤ (k : Int) - 1 by omega)]
  exact (mc_distinct c).sublist
    (List.Sublist.cons₂ c (List.take_sublist _ _))

/-- C4 witness: the amended statement evaluated at k = 3. -/
theorem c4_witness :
    (generate_multiple_choice_distractors "Z" 3).length = min 3 4 ∧
    (generate_multiple_choice_distractors "Z" 3).head? = some "Z" ∧
    List.Pairwise (fun a b => a ≠ b) (generate_multiple_choice_distractors "Z" 3) :=
  c4_mc_exact "Z" 3 (by decide)

/-- C5 counterexample: the empty text yields an empty sentence sequence,
yet a request of one Ordering question (a requested count greater than
zero) succeeds with an empty question list instead of failing. -/
theorem c5_counterexample :
    extract_sentences "" = [] ∧
    generate_quiz (fun _ => 0) "" ⟨0, 0, 1⟩ = .ok [] :=
  ⟨rfl, rfl⟩

/-- C5 (amended): if segmentation yields no sentences and the short-text
or multiple-choice count is positive, generate_quiz fails (with the
index error random.choice raises on an empty sequence, the code's
realization of the EmptyCorpus condition); a positive ordering count
alone does not trigger the failure. -/
theorem c5_empty_corpus (pick : Nat → Nat) (text : String) (counts : QuestionCounts)
    (h0 : extract_sentences text = [])
    (h1 : 0 < counts.short_text ∨ 0 < counts.multiple_choice) :
    generate_quiz pick text counts = .error .indexError := by
  rw [generate_quiz_eq, h0]
  cases hst : counts.short_text with
  | zero =>
    rw [pickQuestions_zero]
    have hmc : 0 < counts.multiple_choice := by
      rcases h1 with h1 | h1
      · rw [hst] at h1; exact absurd h1 (by omega)
      · exact h1
    rw [pickQuestions_nil_error mcQuestion pick 0 counts.multiple_choice hmc]
  | succ m =>
    rw [pickQuestions_nil_error shortTextQuestion pick 0 (m + 1) (Nat.succ_pos m)]

/-- C5 witness: the scenario from the claim, empty input text with one
requested short-text question. -/
theorem c5_witness :
    extract_sentences "" = [] ∧
    generate_quiz (fun _ => 0) "" ⟨1, 0, 0⟩ = .error .indexError :=
  ⟨rfl, c5_empty_corpus (fun _ => 0) "" ⟨1, 0, 0⟩ rfl (Or.inl (by decide))⟩

/-- C6 counterexample: with a non-empty corpus and a requested ordering
count of 3, generate_quiz neither fails with any condition nor produces
any question: the ordering request is silently ignored. -/
theorem c6_counterexample :
    extract_sentences "E. F." = ["E", "F"] ∧
    generate_quiz (fun _ => 0) "E. F." ⟨0, 0, 3⟩ = .ok [] :=
  ⟨rfl, rfl⟩

/-- C6 (amended): generate_quiz never fails on a positive ordering
count and never produces an ordering question: every produced question
has kind short_text or multiple_choice, and when the short-text and
multiple-choice counts are zero the result is the empty list whatever
the ordering count. -/
theorem c6_ordering_ignored (pick : Nat → Nat) (text : String)
    (counts : QuestionCounts) :
    (∀ qs, generate_quiz pick text counts = .ok qs →
      ∀ q ∈ qs, q.type = "short_text" ∨ q.type = "multiple_choice") ∧
    (counts.short_text = 0 → counts.multiple_choice = 0 →
      generate_quiz pick text counts = .ok []) := by
  constructor
  · intro qs h q hq
    rcases generate_quiz_ok_shape h q hq with ⟨s, rfl⟩ | ⟨s, rfl⟩
    · exact Or.inl rfl
    · exact Or.inr rfl
  · intro h1 h2
    obtain ⟨st, mc, od⟩ := counts
    dsimp only at h1 h2
    subst h1
    subst h2
    rfl

/-- C6 witness: the amended statement evaluated on a run that requests
only ordering questions. -/
theorem c6_witness : generate_quiz (fun _ => 0) "B." ⟨0, 0, 2⟩ = .ok [] :=
  (c6_ordering_ignored (fun _ => 0) "B." ⟨0, 0, 2⟩).2 rfl rfl

/-- C7: extract_sentences returns only non-empty strings that are fixed
by stripping (hence trimmed and not whitespace-only, each containing a
non-whitespace character), the concatenation of the returned sentences
is a subsequence of the original text (their relative order is
preserved), text without a period whose strip is non-empty comes back as
the single whole trimmed sentence, and whitespace-only or empty text
yields the empty sequence. -/
theorem c7_extract_sentences_spec (text : String) :
    (∀ s ∈ extract_sentences text,
      s ≠ "" ∧ pyStripS s = s ∧ ∃ c ∈ s.data, isPySpace c = false) ∧
    List.Sublist ((extract_sentences text).map String.data).flatten text.data ∧
    ('.' ∉ text.data → pyStrip text.data ≠ [] →
      extract_sentences text = [String.mk (pyStrip text.data)]) ∧
    ((∀ c ∈ text.data, isPySpace c = true) → extract_sentences text = []) := by
  refine ⟨?_, ?_, ?_, ?_⟩
  · intro s hs
    simp only [extract_sentences, List.mem_map, List.mem_filter] at hs
    obtain ⟨l, ⟨hlm, hlne⟩, rfl⟩ := hs
    obtain ⟨piece, hpm, rfl⟩ := hlm
    have hne : pyStrip piece ≠ [] := by
      intro hh
      rw [hh] at hlne
      simp at hlne
    have hfix : pyStrip (pyStrip piece) = pyStrip piece := pyStrip_idem piece
    refine ⟨?_, ?_, ?_⟩
    · intro hh
      exact hne (congrArg String.data hh)
    · show String.mk (pyStrip (pyStrip piece)) = String.mk (pyStrip piece)
      rw [hfix]
    · exact exists_not_space_of_strip_fix hne hfix
  · have hmk : ((extract_sentences text).map String.data) =
        ((splitDot text.data).map pyStrip).filter (fun l => !l.isEmpty) := by
      rw [extract_sentences, List.map_map]
      exact List.map_id _
    rw [hmk]
    refine (flatten_sublist_of_sublist (List.filter_sublist _)).trans ?_
    refine (flatten_map_pyStrip_sublist _).trans ?_
    refine (flatten_sublist_joinDots _).trans ?_
    rw [joinDots_splitDot]
  · intro hdot hne
    rw [extract_sentences, splitDot_no_dot hdot]
    simp only [List.map_cons, List.map_nil, List.filter_cons]
    rw [if_pos (by simpa using hne)]
    rfl
  · intro hsp
    rw [extract_sentences]
    have hf : ((splitDot text.data).map pyStrip).filter (fun l => !l.isEmpty) = [] := by
      rw [List.filter_eq_nil_iff]
      intro l hl
      obtain ⟨piece, hpm, rfl⟩ := List.mem_map.mp hl
      have : pyStrip piece = [] :=
        pyStrip_nil_of_space (fun c hc => hsp c (mem_splitDot_subset hpm c hc))
      rw [this]
      simp
    rw [hf]
    rfl

/-- C7 witness: the single-sentence case on text without a period and
the whitespace-only case. -/
theorem c7_witness :
    extract_sentences " hello " = [String.mk (pyStrip (String.data " hello "))] ∧
    extract_sentences " \t " = [] :=
  ⟨(c7_extract_sentences_spec " hello ").2.2.1 (by decide) (by decide),
    (c7_extract_sentences_spec " \t ").2.2.2 (by decide)⟩

/-- C8: decoding the JSON value serialized for a question list restores
every field of every question: the StructuredData export is lossless and
re-parsing reconstructs an identical quiz result. -/
theorem c8_json_round_trip (questions : List Question) :
    decodeQuiz (encodeQuiz questions) = some questions := by
  have key : ∀ l : List Question,
      optMap decodeQuestion (l.map questionToJson) = some l := by
    intro l
    induction l with
    | nil => rfl
    | cons q t ih =>
      rw [List.map_cons, optMap_cons_eq, decode_questionToJson, ih]
  show optMap decodeQuestion (questions.map questionToJson) = some questions
  exact key questions

/-- C9: on a question list whose multiple-choice questions carry a
correct index, the gift export emits exactly the concatenation of one
block per multiple-choice question, in order, with every other question
kind silently skipped; each block is the marker line, the 1-based
correct-option index line, one line per answer option and per distractor
in generation order, and a closing line, and the number of blocks equals
the number of multiple-choice questions. -/
theorem c9_gift_blocks (qs : List Question)
    (h : ∀ q ∈ qs, q.type = "multiple_choice" → q.correct_answers ≠ []) :
    export_gift_lines qs =
      .ok (((qs.enum.filter (fun p => p.2.type = "multiple_choice")).map
        (fun p => giftBlock p.1 p.2)).flatten) ∧
    (qs.enum.filter (fun p => p.2.type = "multiple_choice")).length =
      (qs.filter (fun q => q.type = "multiple_choice")).length := by
  constructor
  · have hc := gift_chunks qs 0 h
    unfold export_gift_lines
    rw [show qs.enum = List.enumFrom 0 qs from rfl, hc]
    show Except.ok ((List.enumFrom 0 qs).map
      (fun p => if p.2.type = "multiple_choice" then giftBlock p.1 p.2 else [])).flatten = _
    rw [flatten_if_mc]
  · exact enumFrom_filter_length (fun q => q.type = "multiple_choice") qs 0

/-- C9 witness: a result with two multiple-choice questions and one
short-text question exports to exactly the two blocks of the
multiple-choice questions. -/
theorem c9_witness :
    export_gift_lines [mcQuestion "A", shortTextQuestion "B", mcQuestion "C"] =
      .ok (giftBlock 0 (mcQuestion "A") ++ giftBlock 2 (mcQuestion "C")) := by
  have h := (c9_gift_blocks [mcQuestion "A", shortTextQuestion "B", mcQuestion "C"]
    (by decide)).1
  rw [h]
  rfl

/-- C10: dispatching the exporter on a format identifier other than
json, txt and gift returns Python None (modelled as ok none) instead of
raising or producing output. -/
theorem c10_unknown_format_none (questions : List Question) (format_type : String)
    (h1 : format_type ≠ "json") (h2 : format_type ≠ "txt") (h3 : format_type ≠ "gift") :
    export_questions questions format_type = .ok none := by
  unfold export_questions
  rw [if_neg h1, if_neg h2, if_neg h3]

/-- C10 witness: the dispatch evaluated on the unknown format xml. -/
theorem c10_witness : export_questions [] "xml" = .ok none :=
  c10_unknown_format_none [] "xml" (by decide) (by decide) (by decide)

end Questgen
